import Mathlib

/-!
# Generator: shape / connection editor state (ShapeContext.jsx, App.jsx)

A shallow embedding of the React state held by `ShapesProvider` and of the
handlers that update it.  Every handler reads the state of the current render
and enqueues new values, so a handler is a function from the store to the next
store.  Numbers are exact rationals.  `JSON.stringify` is kept symbolic: the
value written under a key is the serialised list itself.
-/

namespace Generator

/-! ## Data model -/

/-- Value found in the `x` / `y` slot of an endpoint: a number, `NaN`
(arithmetic on a missing field) or `undefined` (a property that is not there). -/
inductive Coord where
  | num (q : ℚ)
  | NaN
  | undefined
  deriving DecidableEq

/-- Value of the `position` property of a point: a string label, `undefined`
(property absent, as on circle anchors) or `null` (free end of the draft edge). -/
inductive Position where
  | undefined
  | null
  | label (s : String)
  deriving DecidableEq

/-- Shape record as built by `addCircle` / `addRectangle`; fields a record does
not carry are `none`. -/
structure Shape where
  id : String
  type : String
  x : ℚ
  y : ℚ
  width : Option ℚ
  height : Option ℚ
  radius : Option ℚ
  fill : String
  draggable : Bool
  cornerRadius : Option ℚ
  text : Option String
  isEditing : Option Bool
  shadowColor : Option String
  shadowBlur : Option ℚ
  shadowOffsetX : Option ℚ
  shadowOffsetY : Option ℚ
  deriving DecidableEq

/-- Point handed to `startLine` by a connection-point circle. -/
structure Point where
  position : Position
  x : Coord
  y : Coord
  deriving DecidableEq

/-- Endpoint `{ nodeId, position, x, y }`; `nodeId = none` is JavaScript `null`. -/
structure Endpoint where
  nodeId : Option String
  position : Position
  x : Coord
  y : Coord
  deriving DecidableEq

/-- Edge record `{ id, points }`. -/
structure Line where
  id : String
  points : List Endpoint
  deriving DecidableEq

/-- Value kept under a `localStorage` key. -/
inductive Stored where
  | shapes (es : List Shape)
  | lines (ls : List Line)
  | text (s : String)
  deriving DecidableEq

/-- The `localStorage` collaborator as an association list. -/
abbrev Storage := List (String × Stored)

/-- The call `localStorage.getItem(key)`. -/
def Storage.getItem (st : Storage) (key : String) : Option Stored :=
  (st.find? (fun e => e.1 == key)).map (fun e => e.2)

/-- The call `localStorage.setItem(key, value)`. -/
def Storage.setItem (st : Storage) (key : String) (value : Stored) : Storage :=
  if st.any (fun e => e.1 == key) then
    st.map (fun e => if e.1 == key then (key, value) else e)
  else st ++ [(key, value)]

/-- The call `localStorage.removeItem(key)`. -/
def Storage.removeItem (st : Storage) (key : String) : Storage :=
  st.filter (fun e => !(e.1 == key))

/-- The `useState` cells of `ShapesProvider` together with `localStorage`. -/
structure Store where
  elems : List Shape
  lines : List Line
  selectedPoint : Option Endpoint
  tempLine : Option Line
  mousePos : Coord × Coord
  scale : ℚ
  position : ℚ × ℚ
  localStorage : Storage
  deriving DecidableEq

/-- Initial values of the `useState` cells, with nothing persisted. -/
def emptyStore : Store :=
  { elems := [], lines := [], selectedPoint := none, tempLine := none,
    mousePos := (Coord.num 0, Coord.num 0), scale := 1, position := (0, 0),
    localStorage := [] }

/-- What the Konva stage reports: `scaleX()`, `x()`, `y()`. -/
structure Stage where
  scaleX : ℚ
  x : ℚ
  y : ℚ

/-- Outcome of a handler that may raise a `TypeError`: the store holds every
update enqueued before the handler ended. -/
inductive Completion where
  | normal (s : Store)
  | threw (s : Store)
  deriving DecidableEq

/-- Store left behind by a handler, however it ended. -/
def Completion.state : Completion → Store
  | .normal s => s
  | .threw s => s

/-! ## Number helpers -/

/-- Conversion `ToNumber`: `undefined` and `NaN` are not numbers. -/
def Coord.toNumber : Coord → Option ℚ
  | .num q => some q
  | _ => none

/-- Read of a numeric field that may be absent. -/
def Coord.ofField : Option ℚ → Coord
  | some q => .num q
  | none => .undefined

instance : Add Coord where
  add a b := match a.toNumber, b.toNumber with
    | some p, some q => .num (p + q)
    | _, _ => .NaN

instance : Sub Coord where
  sub a b := match a.toNumber, b.toNumber with
    | some p, some q => .num (p - q)
    | _, _ => .NaN

/-- Division of coordinates; the only divisor in the source is the literal `2`
(a zero divisor, never met, is reported as `NaN`). -/
instance : Div Coord where
  div a b := match a.toNumber, b.toNumber with
    | some p, some q => if q = 0 then .NaN else .num (p / q)
    | _, _ => .NaN

instance (n : Nat) : OfNat Coord n where
  ofNat := .num n

/-- The constant `_CONNECTION_POINT_OFFSET`. -/
def _CONNECTION_POINT_OFFSET : ℚ := 0

/-- The helper `saveData(key, data)`. -/
def saveData (st : Storage) (key : String) (data : Stored) : Storage :=
  st.setItem key data

/-! ## Anchor points (App.jsx, `renderConnectionPoints`) -/

/-- The points computed by `renderConnectionPoints(shape)`, in order; each one
is what its circle passes to `startLine(shape, id, point)` on click. -/
def renderConnectionPoints (shape : Shape) : List Point :=
  let x := shape.x
  let y := shape.y
  let width := shape.width.getD 60
  let height := shape.height.getD 40
  let radius := shape.radius.getD 30
  let offset := _CONNECTION_POINT_OFFSET
  if shape.type = "Circle" then
    [ { position := .undefined, x := .num x, y := .num (y - radius) },
      { position := .undefined, x := .num x, y := .num (y + radius) },
      { position := .undefined, x := .num (x - radius), y := .num y },
      { position := .undefined, x := .num (x + radius), y := .num y } ]
  else if shape.type = "Rect" then
    [ { position := .label "top", x := .num (x + width / 2), y := .num (y + offset) },
      { position := .label "bottom", x := .num (x + width / 2), y := .num (y + height - offset) },
      { position := .label "left", x := .num (x + offset), y := .num (y + height / 2) },
      { position := .label "right", x := .num (x - offset + width), y := .num (y + height / 2) },
      { position := .label "top-left", x := .num (x + offset), y := .num (y + offset) },
      { position := .label "top-right", x := .num (x + offset + width), y := .num (y + offset) },
      { position := .label "bottom-left", x := .num (x + offset), y := .num (y + offset + height) },
      { position := .label "bottom-right", x := .num (x + offset + width),
        y := .num (y + offset + height) } ]
  else []

/-- The eight labels of a rectangle's anchors. -/
def rectLabels : List String :=
  ["top", "bottom", "left", "right", "top-left", "top-right", "bottom-left", "bottom-right"]

/-! ## Drag reflow (ShapeContext.jsx, `handleDragEnd`) -/

/-- The object literal `newPointerPos` built inside `handleDragEnd`. -/
def newPointerPos (connectedElem : Shape) : List (String × (Coord × Coord)) :=
  let x : Coord := .num connectedElem.x
  let y : Coord := .num connectedElem.y
  let width : Coord := Coord.ofField connectedElem.width
  let height : Coord := Coord.ofField connectedElem.height
  let off : Coord := .num _CONNECTION_POINT_OFFSET
  [ ("top", (x + width / 2, y + off)),
    ("bottom", (x + width / 2, y + height - off)),
    ("left", (x + off, y + height / 2)),
    ("right", (x + width - off, y + height / 2)),
    ("top-left", (x + off, y + off)),
    ("top-right", (x + width + off, y + off)),
    ("bottom-left", (x + off, y + height + off)),
    ("bottom-right", (x + width + off, y + height + off)) ]

/-- Property key a `position` value is converted to in `newPointerPos[p.position]`. -/
def Position.toKey : Position → String
  | .undefined => "undefined"
  | .null => "null"
  | .label s => s

/-- Names every object literal inherits from `Object.prototype`. -/
def objectPrototypeKeys : List String :=
  ["constructor", "__defineGetter__", "__defineSetter__", "hasOwnProperty",
   "__lookupGetter__", "__lookupSetter__", "isPrototypeOf", "propertyIsEnumerable",
   "toString", "valueOf", "__proto__", "toLocaleString"]

/-- The pair `(newPointerPos[key].x, newPointerPos[key].y)`.  An own entry gives
its coordinates, an inherited member has neither property, and any other key
reads `.x` of `undefined`, which raises a `TypeError` (`none`). -/
def readPointerPos (table : List (String × (Coord × Coord))) (key : String) :
    Option (Coord × Coord) :=
  match table.lookup key with
  | some e => some e
  | none => if key ∈ objectPrototypeKeys then some (.undefined, .undefined) else none

/-- The method `Array.prototype.map` with a callback that may throw: the first exception
abandons the whole map. -/
def mapOrThrow {α β : Type} (f : α → Option β) : List α → Option (List β)
  | [] => some []
  | a :: as =>
    match f a with
    | none => none
    | some b =>
      match mapOrThrow f as with
      | none => none
      | some bs => some (b :: bs)

/-- The callback of `line.points.map` in `handleDragEnd`. -/
def reflowPoint (updatedElems : List Shape) (id : String) (p : Endpoint) : Option Endpoint :=
  if p.nodeId = some id then
    match updatedElems.find? (fun el => el.id == id) with
    | none => some p
    | some connectedElem =>
      match readPointerPos (newPointerPos connectedElem) p.position.toKey with
      | none => none
      | some (px, py) => some { p with x := px, y := py }
  else some p

/-- The callback of `lines.map` in `handleDragEnd`. -/
def reflowLine (updatedElems : List Shape) (id : String) (line : Line) : Option Line :=
  match mapOrThrow (reflowPoint updatedElems id) line.points with
  | none => none
  | some pts => some { line with points := pts }

/-- The handler `handleDragEnd(id, e)` with `{ x, y } = e.target.attrs`.  The shapes are set
and saved first; a `TypeError` while mapping the lines leaves the lines and
their persisted value as they were. -/
def handleDragEnd (s : Store) (id : String) (x y : ℚ) : Completion :=
  let updatedElems := s.elems.map (fun elem => if elem.id = id then { elem with x := x, y := y } else elem)
  let s1 : Store :=
    { s with elems := updatedElems,
             localStorage := saveData s.localStorage "shapes" (.shapes updatedElems) }
  match mapOrThrow (reflowLine updatedElems id) s.lines with
  | none => .threw s1
  | some updatedLines =>
    .normal { s1 with lines := updatedLines,
                      localStorage := saveData s1.localStorage "lines" (.lines updatedLines) }

/-! ## Shape store (`addCircle`, `addRectangle`, `clearCanvas`) -/

/-- The handler `addCircle()`. -/
def addCircle (s : Store) : Store :=
  let newElem : Shape :=
    { id := "circle-" ++ toString s.elems.length,
      type := "Circle",
      x := 100 + s.elems.length * 20,
      y := 100,
      width := none, height := none,
      radius := some 30,
      fill := "blue",
      draggable := true,
      cornerRadius := none, text := none, isEditing := none, shadowColor := none,
      shadowBlur := none, shadowOffsetX := none, shadowOffsetY := none }
  let updatedElems := s.elems ++ [newElem]
  { s with elems := updatedElems,
           localStorage := saveData s.localStorage "shapes" (.shapes updatedElems) }

/-- The handler `addRectangle()`; `innerWidth` and `innerHeight` are the window's. -/
def addRectangle (s : Store) (innerWidth innerHeight : ℚ) : Store :=
  let newElem : Shape :=
    { id := "rect-" ++ toString s.elems.length,
      type := "Rect",
      x := innerWidth / 2 + s.elems.length * 20,
      y := innerHeight / 2 + s.elems.length * 20,
      width := some 200,
      height := some 150,
      radius := none,
      fill := "oklch(0.556 0 0)",
      cornerRadius := some 20,
      draggable := true,
      text := some "Editable Text",
      isEditing := some false,
      shadowColor := some "rgba(0, 0, 0, 0.5)",
      shadowBlur := some 10,
      shadowOffsetX := some 5,
      shadowOffsetY := some 5 }
  let updatedElems := s.elems ++ [newElem]
  { s with elems := updatedElems,
           localStorage := saveData s.localStorage "shapes" (.shapes updatedElems) }

/-- The handler `clearCanvas()`. -/
def clearCanvas (s : Store) : Store :=
  { s with elems := [], lines := [],
           localStorage := (s.localStorage.removeItem "shapes").removeItem "lines" }

/-! ## Connection draft protocol (`startLine`, `removeLine`, pointer listeners) -/

/-- The handler `startLine(shape, nodeId, point)`. -/
def startLine (s : Store) (_shape : Shape) (nodeId : String) (point : Point) : Store :=
  match s.selectedPoint with
  | none =>
    let picked : Endpoint :=
      { nodeId := some nodeId, position := point.position, x := point.x, y := point.y }
    { s with selectedPoint := some picked }
  | some selectedPoint =>
    if selectedPoint.nodeId = some nodeId ∧ selectedPoint.position = point.position then
      { s with selectedPoint := none }
    else
      let newLine : Line :=
        { id := "line-" ++ toString s.lines.length,
          points :=
            [ { nodeId := selectedPoint.nodeId, position := selectedPoint.position,
                x := selectedPoint.x, y := selectedPoint.y },
              { nodeId := some nodeId, position := point.position, x := point.x, y := point.y } ] }
      let updatedLines := s.lines ++ [newLine]
      { s with lines := updatedLines,
               localStorage := saveData s.localStorage "lines" (.lines updatedLines),
               selectedPoint := none }

/-- The handler `removeLine(selectedLine)`. -/
def removeLine (s : Store) (selectedLine : Line) : Store :=
  let updatedLines := s.lines.filter (fun line => line.id != selectedLine.id)
  { s with lines := updatedLines,
           localStorage := saveData s.localStorage "lines" (.lines updatedLines) }

/-- The handler `handleMouseMove(event)` with `event.clientX`, `event.clientY`; the stage's
scale is non-zero wherever the division is read. -/
def handleMouseMove (s : Store) (stage : Stage) (clientX clientY : ℚ) : Store :=
  match s.selectedPoint with
  | none => s
  | some selectedPoint =>
    let adjustedX := (clientX - stage.x) / stage.scaleX
    let adjustedY := (clientY - stage.y) / stage.scaleX
    { s with mousePos := (.num adjustedX, .num adjustedY),
             tempLine := some
               { id := "temp-line",
                 points :=
                   [ { nodeId := selectedPoint.nodeId, position := selectedPoint.position,
                       x := selectedPoint.x, y := selectedPoint.y },
                     { nodeId := none, position := .null, x := .num adjustedX,
                       y := .num adjustedY } ] } }

/-- The handler `handleRightClick(event)`, the `contextmenu` listener. -/
def handleRightClick (s : Store) : Store :=
  { s with tempLine := none, selectedPoint := none }

/-- The `mouseup` listener `() => setTempLine(null)`. -/
def mouseupListener (s : Store) : Store :=
  { s with tempLine := none }

/-! ## Viewport (`handleWheel`) -/

/-- The handler `handleWheel(e)`: `pointer` is `stage.getPointerPosition()` and `deltaY` is
`e.evt.deltaY`; the factor `1.1` is the rational `11/10`. -/
def handleWheel (s : Store) (stage : Stage) (pointer : Option (ℚ × ℚ)) (deltaY : ℚ) : Store :=
  match pointer with
  | none => s
  | some pointer =>
    let oldScale := stage.scaleX
    let scaleBy : ℚ := 11 / 10
    let newScale := if deltaY < 0 then oldScale * scaleBy else oldScale / scaleBy
    let mousePointTo : ℚ × ℚ := ((pointer.1 - stage.x) / oldScale, (pointer.2 - stage.y) / oldScale)
    let newPosition : ℚ × ℚ :=
      (pointer.1 - mousePointTo.1 * newScale, pointer.2 - mousePointTo.2 * newScale)
    { s with scale := newScale, position := newPosition }

/-! ## Derived notions used by the statements -/

/-- The shapes after the position patch of `handleDragEnd`. -/
def patchElems (elems : List Shape) (id : String) (x y : ℚ) : List Shape :=
  elems.map (fun elem => if elem.id = id then { elem with x := x, y := y } else elem)

/-- The anchor of `shape` labelled `a`, read off `renderConnectionPoints`. -/
def anchorAt (shape : Shape) (a : String) : Option Point :=
  (renderConnectionPoints shape).find? (fun pt => pt.position = Position.label a)

/-- Reads a list of decimal digit characters back as a number. -/
def decodeDigits (cs : List Char) : Nat :=
  cs.foldl (fun a c => 10 * a + (c.toNat - 48)) 0

/-- The rectangle `addRectangle` builds as second shape in an 800 x 600 window. -/
def demoRect : Shape :=
  { id := "rect-1", type := "Rect", x := 420, y := 320, width := some 200, height := some 150,
    radius := none, fill := "oklch(0.556 0 0)", cornerRadius := some 20, draggable := true,
    text := some "Editable Text", isEditing := some false,
    shadowColor := some "rgba(0, 0, 0, 0.5)", shadowBlur := some 10,
    shadowOffsetX := some 5, shadowOffsetY := some 5 }

/-- The circle `addCircle` builds as first shape. -/
def demoCircle : Shape :=
  { id := "circle-0", type := "Circle", x := 100, y := 100, width := none, height := none,
    radius := some 30, fill := "blue", draggable := true, cornerRadius := none, text := none,
    isEditing := none, shadowColor := none, shadowBlur := none, shadowOffsetX := none,
    shadowOffsetY := none }

/-- The edge from the circle's right anchor to the rectangle's top-left anchor. -/
def demoLine : Line :=
  { id := "line-0",
    points :=
      [ { nodeId := some "circle-0", position := .undefined, x := .num 130, y := .num 100 },
        { nodeId := some "rect-1", position := .label "top-left", x := .num 420, y := .num 320 } ] }

/-- The store of the scenario: one circle, one rectangle, one edge between them. -/
def demoStore : Store :=
  { emptyStore with
    elems := [demoCircle, demoRect],
    lines := [demoLine],
    localStorage := [("shapes", .shapes [demoCircle, demoRect]), ("lines", .lines [demoLine])] }

/-- Stores the handlers can produce from the empty store.  `startLine` is called
by a connection-point circle of a shape on the canvas, with that shape's id and
a point of `renderConnectionPoints`; a handler that raises leaves its state. -/
inductive Reachable : Store → Prop
  | init : Reachable emptyStore
  | addCircle {s : Store} : Reachable s → Reachable (addCircle s)
  | addRectangle {s : Store} (innerWidth innerHeight : ℚ) :
      Reachable s → Reachable (addRectangle s innerWidth innerHeight)
  | startLine {s : Store} (shape : Shape) (point : Point) :
      Reachable s → shape ∈ s.elems → point ∈ renderConnectionPoints shape →
      Reachable (startLine s shape shape.id point)
  | handleDragEnd {s : Store} (id : String) (x y : ℚ) :
      Reachable s → Reachable (handleDragEnd s id x y).state
  | handleMouseMove {s : Store} (stage : Stage) (clientX clientY : ℚ) :
      Reachable s → Reachable (handleMouseMove s stage clientX clientY)
  | handleRightClick {s : Store} : Reachable s → Reachable (handleRightClick s)
  | mouseupListener {s : Store} : Reachable s → Reachable (mouseupListener s)
  | removeLine {s : Store} (selectedLine : Line) :
      Reachable s → Reachable (removeLine s selectedLine)
  | clearCanvas {s : Store} : Reachable s → Reachable (clearCanvas s)
  | handleWheel {s : Store} (stage : Stage) (pointer : Option (ℚ × ℚ)) (deltaY : ℚ) :
      Reachable s → Reachable (handleWheel s stage pointer deltaY)

/-- Every shape's id is `circle-<i>` or `rect-<i>` for its index `i` in `elems`. -/
def IdsByIndex (elems : List Shape) : Prop :=
  ∀ (i : Nat) (S : Shape), elems[i]? = some S →
    S.id = "circle-" ++ toString i ∨ S.id = "rect-" ++ toString i

/-- What `addCircle` / `addRectangle` fix about the shape at index `i`. -/
def ShapeWF (i : Nat) (S : Shape) : Prop :=
  (S.id = "circle-" ++ toString i ∧ S.type = "Circle") ∨
    (S.id = "rect-" ++ toString i ∧ S.type = "Rect" ∧ S.width = some 200 ∧ S.height = some 150)

/-- An endpoint taken from a circle anchor has no label; one taken from a
rectangle anchor has one of the eight labels. -/
def EndpointWF (p : Endpoint) : Prop :=
  (∃ k : Nat, p.nodeId = some ("circle-" ++ toString k) ∧ p.position = Position.undefined) ∨
    (∃ k : Nat, p.nodeId = some ("rect-" ++ toString k) ∧
      ∃ a ∈ rectLabels, p.position = Position.label a)

/-- Well-formedness of a store: shapes as built by the add handlers, endpoints
as taken from their anchors. -/
def StoreWF (s : Store) : Prop :=
  (∀ (i : Nat) (S : Shape), s.elems[i]? = some S → ShapeWF i S) ∧
    (∀ l ∈ s.lines, ∀ p ∈ l.points, EndpointWF p) ∧
    (∀ p, s.selectedPoint = some p → EndpointWF p)

/-- The first rectangle `addRectangle` builds in an 800 x 600 window. -/
def firstRect : Shape :=
  { id := "rect-0", type := "Rect", x := 400, y := 300, width := some 200, height := some 150,
    radius := none, fill := "oklch(0.556 0 0)", cornerRadius := some 20, draggable := true,
    text := some "Editable Text", isEditing := some false,
    shadowColor := some "rgba(0, 0, 0, 0.5)", shadowBlur := some 10,
    shadowOffsetX := some 5, shadowOffsetY := some 5 }

/-- Two rectangles on the canvas, nothing else. -/
def twoRects : Store := addRectangle (addRectangle emptyStore 800 600) 800 600

/-- Edge-coordinate invariant: every endpoint bound to a rectangle on the canvas
by one of the eight labels stores the coordinates of that anchor as
`renderConnectionPoints` computes it from the rectangle now. -/
def EdgeCoordInv (s : Store) : Prop :=
  ∀ l ∈ s.lines, ∀ p ∈ l.points, ∀ S ∈ s.elems, S.type = "Rect" → p.nodeId = some S.id →
    ∀ a ∈ rectLabels, p.position = Position.label a →
      anchorAt S a = some { position := Position.label a, x := p.x, y := p.y }

/-- Select the top anchor of `rect-0`, drag `rect-0` by +50 in x, then click the
top-left anchor of `rect-1`. -/
def staleStore : Store :=
  startLine
    (handleDragEnd
      (startLine twoRects firstRect "rect-0" { position := .label "top", x := .num 500, y := .num 300 })
      "rect-0" 450 300).state
    demoRect "rect-1" { position := .label "top-left", x := .num 420, y := .num 320 }

/-- The scenario store after a click on the top anchor of `rect-1`. -/
def pendingStore : Store :=
  startLine demoStore demoRect "rect-1" { position := .label "top", x := .num 520, y := .num 320 }

/-- A stage at scale 1 with no pan. -/
def demoStage : Stage := { scaleX := 1, x := 0, y := 0 }

/-- Commit two edges between the two rectangles, delete the first by a click,
then commit a third edge. -/
def dupStore : Store :=
  startLine
    (startLine
      (removeLine
        (startLine
          (startLine
            (startLine
              (startLine twoRects firstRect "rect-0"
                { position := .label "top", x := .num 500, y := .num 300 })
              demoRect "rect-1" { position := .label "top", x := .num 520, y := .num 320 })
            firstRect "rect-0" { position := .label "bottom", x := .num 500, y := .num 450 })
          demoRect "rect-1" { position := .label "bottom", x := .num 520, y := .num 470 })
        { id := "line-0",
          points :=
            [ { nodeId := some "rect-0", position := .label "top", x := .num 500, y := .num 300 },
              { nodeId := some "rect-1", position := .label "top", x := .num 520,
                y := .num 320 } ] })
      firstRect "rect-0" { position := .label "left", x := .num 400, y := .num 375 })
    demoRect "rect-1" { position := .label "left", x := .num 420, y := .num 395 }

/-- Frame of one shape under a drag of `id` to `(x, y)`: no field other than `x`
and `y` changes, a shape with another id is kept whole, a shape with that id
gets the new position. -/
def ShapeFrame (id : String) (x y : ℚ) (T T' : Shape) : Prop :=
  T' = { T with x := T'.x, y := T'.y } ∧ (T.id ≠ id → T' = T) ∧
    (T.id = id → T'.x = x ∧ T'.y = y)

/-- Frame of one endpoint under a drag of `id`: node id and label are kept, and
an endpoint bound to another node is kept whole. -/
def EndpointFrame (id : String) (p q : Endpoint) : Prop :=
  q.nodeId = p.nodeId ∧ q.position = p.position ∧ (p.nodeId ≠ some id → q = p)

/-- Frame of one edge under a drag of `id`: same edge id, endpoints in the same
number and order, each within its frame. -/
def LineFrame (id : String) (l l' : Line) : Prop :=
  l'.id = l.id ∧ List.Forall₂ (EndpointFrame id) l.points l'.points

/-- Attributes of the mini-map Konva stage that the viewport drives. -/
structure MiniMap where
  scaleX : ℚ
  scaleY : ℚ
  x : ℚ
  y : ℚ
  deriving DecidableEq

/-- The props `GridStage` passes to the mini-map `Stage` (App.jsx, `scaleX`,
`scaleY`, `x`, `y`); the factor `0.1` is the rational `1/10`. -/
def miniMapProps (s : Store) : MiniMap :=
  { scaleX := s.scale * (1 / 10),
    scaleY := s.scale * (1 / 10),
    x := s.position.1 * (1 / 10),
    y := s.position.2 * (1 / 10) }

/-- The effect of `GridStage` that syncs the mini-map, run on `miniMapRef.current`
(`none` while the mini-map is not mounted): it sets `x` and `y` of the stage. -/
def miniMapSyncEffect (s : Store) (miniMapRef : Option MiniMap) : Option MiniMap :=
  match miniMapRef with
  | none => none
  | some miniMap =>
    some { miniMap with x := s.position.1 * (s.scale * (1 / 10)),
                        y := s.position.2 * (s.scale * (1 / 10)) }

/-- A render of `GridStage`, which applies the props, followed by its sync effect. -/
def syncMiniMap (s : Store) : Option MiniMap :=
  miniMapSyncEffect s (some (miniMapProps s))

/-- The empty store after one wheel zoom-in at the pointer `(100, 50)`. -/
def zoomedStore : Store :=
  handleWheel emptyStore demoStage (some (100, 50)) (-1)

/-! ## Auxiliary facts -/

theorem Coord.num_add_num (a b : ℚ) : Coord.num a + Coord.num b = Coord.num (a + b) := rfl

theorem Coord.num_sub_num (a b : ℚ) : Coord.num a - Coord.num b = Coord.num (a - b) := rfl

theorem Coord.num_div_two (a : ℚ) : Coord.num a / (2 : Coord) = Coord.num (a / 2) := by
  show (if ((2 : ℕ) : ℚ) = 0 then Coord.NaN else Coord.num (a / ((2 : ℕ) : ℚ))) = _
  rw [if_neg (by norm_num)]
  norm_num

theorem mapOrThrow_total {α β : Type} (f : α → Option β) :
    ∀ l : List α, (∀ a ∈ l, ∃ b, f a = some b) → ∃ bs, mapOrThrow f l = some bs
  | [], _ => ⟨[], rfl⟩
  | a :: as, h => by
    obtain ⟨b, hb⟩ := h a (List.mem_cons_self a as)
    obtain ⟨bs, hbs⟩ := mapOrThrow_total f as (fun c hc => h c (List.mem_cons_of_mem a hc))
    exact ⟨b :: bs, by simp [mapOrThrow, hb, hbs]⟩

theorem mapOrThrow_mem {α β : Type} (f : α → Option β) :
    ∀ (l : List α) (bs : List β), mapOrThrow f l = some bs →
      ∀ b ∈ bs, ∃ a ∈ l, f a = some b
  | [], bs, h, b, hb => by
    simp [mapOrThrow] at h
    subst h
    simp at hb
  | a :: as, bs, h, b, hb => by
    unfold mapOrThrow at h
    cases hfa : f a with
    | none => simp [hfa] at h
    | some b0 =>
      cases hrest : mapOrThrow f as with
      | none => simp [hfa, hrest] at h
      | some bs0 =>
        simp [hfa, hrest] at h
        subst h
        rcases List.mem_cons.1 hb with rfl | hb
        · exact ⟨a, List.mem_cons_self a as, hfa⟩
        · obtain ⟨c, hc, hfc⟩ := mapOrThrow_mem f as bs0 hrest b hb
          exact ⟨c, List.mem_cons_of_mem a hc, hfc⟩

theorem find_patchElems (elems : List Shape) (S : Shape) (x y : ℚ)
    (hS : S ∈ elems) (huniq : ∀ T ∈ elems, T.id = S.id → T = S) :
    (patchElems elems S.id x y).find? (fun el => el.id == S.id) = some { S with x := x, y := y } := by
  induction elems with
  | nil => simp at hS
  | cons T rest ih =>
    by_cases hT : T.id = S.id
    · have : T = S := huniq T (List.mem_cons_self T rest) hT
      subst this
      simp [patchElems]
    · have hS2 : S ∈ rest := by
        rcases List.mem_cons.1 hS with h | h
        · exact absurd (by rw [h]) hT
        · exact h
      have := ih hS2 (fun U hU => huniq U (List.mem_cons_of_mem T hU))
      simp only [patchElems] at this
      simp [patchElems, hT, this]

theorem readPointerPos_rect (R : Shape) (w h : ℚ) (hrect : R.type = "Rect")
    (hw : R.width = some w) (hh : R.height = some h) (a : String) (ha : a ∈ rectLabels) :
    ∃ px py, readPointerPos (newPointerPos R) a = some (px, py) ∧
      anchorAt R a = some { position := .label a, x := px, y := py } := by
  simp only [rectLabels, List.mem_cons, List.mem_singleton, List.not_mem_nil, or_false] at ha
  rcases ha with rfl | rfl | rfl | rfl | rfl | rfl | rfl | rfl <;>
    simp [readPointerPos, newPointerPos, anchorAt, renderConnectionPoints, hrect, hw, hh,
      Coord.ofField, _CONNECTION_POINT_OFFSET, List.lookup, Coord.num_add_num, Coord.num_sub_num,
      Coord.num_div_two]

theorem reflowPoint_keeps (ue : List Shape) (id : String) (p q : Endpoint)
    (h : reflowPoint ue id p = some q) : q.nodeId = p.nodeId ∧ q.position = p.position := by
  unfold reflowPoint at h
  split at h
  · split at h
    · cases h; exact ⟨rfl, rfl⟩
    · split at h
      · cases h
      · cases h; exact ⟨rfl, rfl⟩
  · cases h; exact ⟨rfl, rfl⟩

theorem toDigitsCore_append (f : Nat) : ∀ (n : Nat) (ds : List Char),
    Nat.toDigitsCore 10 f n ds = Nat.toDigitsCore 10 f n [] ++ ds := by
  induction f with
  | zero => intro n ds; simp [Nat.toDigitsCore]
  | succ f ih =>
    intro n ds
    simp only [Nat.toDigitsCore]
    split
    · simp
    · rw [ih (n / 10) (Nat.digitChar (n % 10) :: ds), ih (n / 10) [Nat.digitChar (n % 10)]]
      simp

theorem digitChar_value : ∀ k < 10, (Nat.digitChar k).toNat - 48 = k := by decide

theorem decodeDigits_toDigitsCore (f : Nat) : ∀ n : Nat, n < f →
    decodeDigits (Nat.toDigitsCore 10 f n []) = n := by
  induction f with
  | zero => intro n hn; omega
  | succ f ih =>
    intro n hn
    simp only [Nat.toDigitsCore]
    split
    · rename_i h0
      have hlt : n % 10 < 10 := Nat.mod_lt _ (by decide)
      simp only [decodeDigits, List.foldl, digitChar_value _ hlt]
      omega
    · rename_i h0
      have hlt : n % 10 < 10 := Nat.mod_lt _ (by decide)
      rw [toDigitsCore_append f (n / 10) [Nat.digitChar (n % 10)]]
      have hrec := ih (n / 10) (by omega)
      simp only [decodeDigits] at hrec ⊢
      rw [List.foldl_append, hrec]
      simp only [List.foldl, digitChar_value _ hlt]
      omega

theorem toString_nat_zero : toString (0 : Nat) = "0" := by decide

theorem toString_nat_one : toString (1 : Nat) = "1" := by decide

theorem toString_nat_injective (i j : Nat) (h : toString i = toString j) : i = j := by
  have h2 : (Nat.toDigits 10 i) = (Nat.toDigits 10 j) := by
    have := congrArg String.data h
    simpa [toString, Nat.repr, List.asString] using this
  have hi := decodeDigits_toDigitsCore (i + 1) i (Nat.lt_succ_self i)
  have hj := decodeDigits_toDigitsCore (j + 1) j (Nat.lt_succ_self j)
  unfold Nat.toDigits at h2
  rw [h2] at hi
  omega

theorem tagged_id_injective (tag : String) (i j : Nat)
    (h : tag ++ toString i = tag ++ toString j) : i = j := by
  apply toString_nat_injective
  have := congrArg String.data h
  simp only [String.data_append, List.append_cancel_left_eq] at this
  exact String.ext this

theorem circle_ne_rect (i j : Nat) : "circle-" ++ toString i ≠ "rect-" ++ toString j := by
  intro h
  have := congrArg String.data h
  simp [String.data_append] at this

theorem startLine_elems (s : Store) (shape : Shape) (nodeId : String) (point : Point) :
    (startLine s shape nodeId point).elems = s.elems := by
  unfold startLine
  split
  · rfl
  · split <;> rfl

theorem handleMouseMove_elems (s : Store) (stage : Stage) (cx cy : ℚ) :
    (handleMouseMove s stage cx cy).elems = s.elems := by
  unfold handleMouseMove
  split <;> rfl

theorem handleWheel_elems (s : Store) (stage : Stage) (pointer : Option (ℚ × ℚ)) (d : ℚ) :
    (handleWheel s stage pointer d).elems = s.elems := by
  unfold handleWheel
  split <;> rfl

theorem handleDragEnd_elems (s : Store) (id : String) (x y : ℚ) :
    (handleDragEnd s id x y).state.elems = patchElems s.elems id x y := by
  unfold handleDragEnd
  simp only []
  split <;> rfl

theorem getItem_setItem_same (st : Storage) (key : String) (value : Stored) :
    (st.setItem key value).getItem key = some value := by
  unfold Storage.setItem Storage.getItem
  split
  · rename_i hany
    induction st with
    | nil => simp at hany
    | cons e rest ih =>
      by_cases he : e.1 = key
      · simp [he]
      · have hrest : rest.any (fun e => e.1 == key) = true := by
          simpa [he] using hany
        have := ih hrest
        simpa [List.find?_cons, he] using this
  · rename_i hany
    have hnone : st.find? (fun e => e.1 == key) = none := by
      rw [List.find?_eq_none]
      intro e he hk
      exact hany (List.any_eq_true.2 ⟨e, he, hk⟩)
    simp [List.find?_append, hnone]

theorem getItem_removeItem_same (st : Storage) (key : String) :
    (st.removeItem key).getItem key = none := by
  unfold Storage.removeItem Storage.getItem
  simp [List.find?_eq_none]

theorem getItem_removeItem_other (st : Storage) (key k : String) (h : k ≠ key) :
    (st.removeItem key).getItem k = st.getItem k := by
  unfold Storage.removeItem Storage.getItem
  induction st with
  | nil => rfl
  | cons e rest ih =>
    by_cases he : e.1 = key
    · have hb1 : (e.1 == key) = true := beq_iff_eq.2 he
      have hb2 : (e.1 == k) = false := beq_eq_false_iff_ne.2 (fun hk => h (hk.symm.trans he))
      rw [List.filter_cons, List.find?_cons]
      simp only [hb1, hb2, Bool.not_true]
      exact ih
    · have hb1 : (e.1 == key) = false := beq_eq_false_iff_ne.2 he
      rw [List.filter_cons]
      simp only [hb1, Bool.not_false, if_true, List.find?_cons]
      cases hb2 : (e.1 == k)
      · exact ih
      · rfl

/-! ## Concrete stores -/

theorem demoStore_eq : demoStore =
    startLine (startLine (addRectangle (addCircle emptyStore) 800 600) demoCircle "circle-0"
      { position := .undefined, x := .num 130, y := .num 100 }) demoRect "rect-1"
      { position := .label "top-left", x := .num 420, y := .num 320 } := by
  simp [demoStore, startLine, addRectangle, addCircle, emptyStore, saveData, Storage.setItem,
    demoCircle, demoRect, demoLine, toString_nat_zero, toString_nat_one]
  norm_num

theorem demoStore_reachable : Reachable demoStore := by
  rw [demoStore_eq]
  have h2 : Reachable (addRectangle (addCircle emptyStore) 800 600) :=
    Reachable.addRectangle 800 600 (Reachable.addCircle Reachable.init)
  have e2 : (addRectangle (addCircle emptyStore) 800 600).elems = [demoCircle, demoRect] := by
    simp [addRectangle, addCircle, emptyStore, demoCircle, demoRect, toString_nat_zero,
      toString_nat_one]
    norm_num
  have h3 := Reachable.startLine demoCircle
    { position := .undefined, x := .num 130, y := .num 100 } h2
    (by rw [e2]; exact List.mem_cons_self _ _)
    (by simp [renderConnectionPoints, demoCircle]; norm_num)
  exact Reachable.startLine demoRect
    { position := .label "top-left", x := .num 420, y := .num 320 } h3
    (by rw [startLine_elems, e2]; simp)
    (by simp [renderConnectionPoints, demoRect, _CONNECTION_POINT_OFFSET])

theorem twoRects_elems : twoRects.elems = [firstRect, demoRect] := by
  simp [twoRects, addRectangle, emptyStore, firstRect, demoRect, toString_nat_zero,
    toString_nat_one]
  norm_num

theorem twoRects_reachable : Reachable twoRects :=
  Reachable.addRectangle 800 600 (Reachable.addRectangle 800 600 Reachable.init)

theorem firstRect_points : renderConnectionPoints firstRect =
    [ { position := .label "top", x := .num 500, y := .num 300 },
      { position := .label "bottom", x := .num 500, y := .num 450 },
      { position := .label "left", x := .num 400, y := .num 375 },
      { position := .label "right", x := .num 600, y := .num 375 },
      { position := .label "top-left", x := .num 400, y := .num 300 },
      { position := .label "top-right", x := .num 600, y := .num 300 },
      { position := .label "bottom-left", x := .num 400, y := .num 450 },
      { position := .label "bottom-right", x := .num 600, y := .num 450 } ] := by
  simp [renderConnectionPoints, firstRect, _CONNECTION_POINT_OFFSET]
  norm_num

theorem demoRect_points : renderConnectionPoints demoRect =
    [ { position := .label "top", x := .num 520, y := .num 320 },
      { position := .label "bottom", x := .num 520, y := .num 470 },
      { position := .label "left", x := .num 420, y := .num 395 },
      { position := .label "right", x := .num 620, y := .num 395 },
      { position := .label "top-left", x := .num 420, y := .num 320 },
      { position := .label "top-right", x := .num 620, y := .num 320 },
      { position := .label "bottom-left", x := .num 420, y := .num 470 },
      { position := .label "bottom-right", x := .num 620, y := .num 470 } ] := by
  simp [renderConnectionPoints, demoRect, _CONNECTION_POINT_OFFSET]
  norm_num

theorem click_keeps (E : List Shape) (s : Store) (shape : Shape) (pt : Point)
    (h : Reachable s ∧ s.elems = E) (hs : shape ∈ E) (hpt : pt ∈ renderConnectionPoints shape) :
    Reachable (startLine s shape shape.id pt) ∧ (startLine s shape shape.id pt).elems = E :=
  ⟨Reachable.startLine shape pt h.1 (h.2 ▸ hs) hpt, (startLine_elems s shape shape.id pt).trans h.2⟩

theorem removeLine_keeps (E : List Shape) (s : Store) (l : Line)
    (h : Reachable s ∧ s.elems = E) :
    Reachable (removeLine s l) ∧ (removeLine s l).elems = E :=
  ⟨Reachable.removeLine l h.1, h.2⟩

/-! ## Well-formedness of reachable stores -/

theorem shapeWF_append (elems : List Shape) (e : Shape)
    (h : ∀ (i : Nat) (S : Shape), elems[i]? = some S → ShapeWF i S)
    (he : ShapeWF elems.length e) :
    ∀ (i : Nat) (S : Shape), (elems ++ [e])[i]? = some S → ShapeWF i S := by
  intro i S hi
  by_cases hlt : i < elems.length
  · rw [List.getElem?_append_left hlt] at hi
    exact h i S hi
  · rw [List.getElem?_append_right (by omega)] at hi
    by_cases hi0 : i - elems.length = 0
    · rw [hi0] at hi
      simp at hi
      subst hi
      have : i = elems.length := by omega
      subst this
      exact he
    · have : ([e] : List Shape)[i - elems.length]? = none := by
        apply List.getElem?_eq_none
        simp
        omega
      rw [this] at hi
      cases hi

theorem shapeWF_patch (elems : List Shape) (id : String) (x y : ℚ)
    (h : ∀ (i : Nat) (S : Shape), elems[i]? = some S → ShapeWF i S) :
    ∀ (i : Nat) (S : Shape), (patchElems elems id x y)[i]? = some S → ShapeWF i S := by
  intro i S hi
  simp only [patchElems, List.getElem?_map] at hi
  cases hT : elems[i]? with
  | none => simp [hT] at hi
  | some T =>
    simp only [hT, Option.map_some', Option.some.injEq] at hi
    have hT2 := h i T hT
    subst hi
    split
    · exact hT2
    · exact hT2

theorem anchor_endpointWF (i : Nat) (shape : Shape) (pt : Point) (hs : ShapeWF i shape)
    (hpt : pt ∈ renderConnectionPoints shape) :
    EndpointWF { nodeId := some shape.id, position := pt.position, x := pt.x, y := pt.y } := by
  rcases hs with ⟨hid, hty⟩ | ⟨hid, hty, -, -⟩
  · left
    refine ⟨i, by rw [hid], ?_⟩
    simp only [renderConnectionPoints, hty, if_true, List.mem_cons, List.mem_singleton,
      List.not_mem_nil, or_false] at hpt
    rcases hpt with rfl | rfl | rfl | rfl <;> rfl
  · right
    refine ⟨i, by rw [hid], ?_⟩
    have hne : ¬ ("Rect" = "Circle") := by decide
    simp only [renderConnectionPoints, hty, hne, if_true, if_false, List.mem_cons,
      List.mem_singleton, List.not_mem_nil, or_false] at hpt
    rcases hpt with rfl | rfl | rfl | rfl | rfl | rfl | rfl | rfl
    · exact ⟨"top", by simp [rectLabels], rfl⟩
    · exact ⟨"bottom", by simp [rectLabels], rfl⟩
    · exact ⟨"left", by simp [rectLabels], rfl⟩
    · exact ⟨"right", by simp [rectLabels], rfl⟩
    · exact ⟨"top-left", by simp [rectLabels], rfl⟩
    · exact ⟨"top-right", by simp [rectLabels], rfl⟩
    · exact ⟨"bottom-left", by simp [rectLabels], rfl⟩
    · exact ⟨"bottom-right", by simp [rectLabels], rfl⟩

theorem startLine_storeWF (s : Store) (shape : Shape) (pt : Point) (h : StoreWF s)
    (hs : shape ∈ s.elems) (hpt : pt ∈ renderConnectionPoints shape) :
    StoreWF (startLine s shape shape.id pt) := by
  obtain ⟨h1, h2, h3⟩ := h
  obtain ⟨i, hi⟩ := List.getElem?_of_mem hs
  have hnew := anchor_endpointWF i shape pt (h1 i shape hi) hpt
  refine ⟨by rw [startLine_elems]; exact h1, ?_, ?_⟩
  · unfold startLine
    split
    · exact h2
    · rename_i X hX
      split
      · exact h2
      · intro l hl p hp
        rcases List.mem_append.1 hl with hl | hl
        · exact h2 l hl p hp
        · rw [List.mem_singleton] at hl
          subst hl
          simp only [List.mem_cons, List.mem_singleton, List.not_mem_nil, or_false] at hp
          rcases hp with rfl | rfl
          · exact h3 X hX
          · exact hnew
  · unfold startLine
    split
    · intro p hp
      simp only [Option.some.injEq] at hp
      subst hp
      exact hnew
    · split <;> intro p hp <;> cases hp

theorem handleDragEnd_storeWF (s : Store) (id : String) (x y : ℚ) (h : StoreWF s) :
    StoreWF (handleDragEnd s id x y).state := by
  obtain ⟨h1, h2, h3⟩ := h
  refine ⟨by rw [handleDragEnd_elems]; exact shapeWF_patch _ _ _ _ h1, ?_, ?_⟩
  · unfold handleDragEnd
    simp only []
    split
    · exact h2
    · rename_i ls hls
      intro l' hl' q hq
      obtain ⟨l, hl, hl2⟩ := mapOrThrow_mem _ s.lines ls hls l' hl'
      unfold reflowLine at hl2
      split at hl2
      · cases hl2
      · rename_i pts hpts
        simp only [Option.some.injEq] at hl2
        subst hl2
        obtain ⟨p, hp, hpq⟩ := mapOrThrow_mem _ l.points pts hpts q hq
        obtain ⟨k1, k2⟩ := reflowPoint_keeps _ _ _ _ hpq
        have := h2 l hl p hp
        unfold EndpointWF at this ⊢
        rw [k1, k2]
        exact this
  · unfold handleDragEnd
    simp only []
    split <;> exact h3

theorem reachable_storeWF {s : Store} (h : Reachable s) : StoreWF s := by
  induction h with
  | init =>
    refine ⟨?_, ?_, ?_⟩
    · intro i S hi; simp [emptyStore] at hi
    · intro l hl; simp [emptyStore] at hl
    · intro p hp; simp [emptyStore] at hp
  | addCircle _ ih =>
    exact ⟨shapeWF_append _ _ ih.1 (Or.inl ⟨rfl, rfl⟩), ih.2.1, ih.2.2⟩
  | addRectangle _ _ _ ih =>
    exact ⟨shapeWF_append _ _ ih.1 (Or.inr ⟨rfl, rfl, rfl, rfl⟩), ih.2.1, ih.2.2⟩
  | startLine shape point _ hs hpt ih => exact startLine_storeWF _ shape point ih hs hpt
  | handleDragEnd id x y _ ih => exact handleDragEnd_storeWF _ id x y ih
  | handleMouseMove stage cx cy _ ih =>
    unfold handleMouseMove
    split
    · exact ih
    · exact ⟨ih.1, ih.2.1, ih.2.2⟩
  | handleRightClick _ ih =>
    exact ⟨ih.1, ih.2.1, fun p hp => by cases hp⟩
  | mouseupListener _ ih => exact ⟨ih.1, ih.2.1, ih.2.2⟩
  | removeLine selectedLine _ ih =>
    exact ⟨ih.1, fun l hl => ih.2.1 l (List.mem_of_mem_filter hl), ih.2.2⟩
  | clearCanvas _ ih =>
    refine ⟨?_, ?_, ih.2.2⟩
    · intro i S hi; simp [clearCanvas] at hi
    · intro l hl; simp [clearCanvas] at hl
  | handleWheel stage pointer d _ ih =>
    unfold handleWheel
    split
    · exact ih
    · exact ⟨ih.1, ih.2.1, ih.2.2⟩

/-- In a reachable store a rectangle on the canvas carries width 200 and height
150, no other shape shares its id, and every endpoint bound to it is labelled. -/
theorem reachable_rect_wellformed (s : Store) (S : Shape) (h : Reachable s)
    (hS : S ∈ s.elems) (hrect : S.type = "Rect") :
    S.width = some 200 ∧ S.height = some 150 ∧
      (∀ T ∈ s.elems, T.id = S.id → T = S) ∧
      (∀ l ∈ s.lines, ∀ p ∈ l.points, p.nodeId = some S.id →
        ∃ a ∈ rectLabels, p.position = Position.label a) := by
  obtain ⟨h1, h2, -⟩ := reachable_storeWF h
  obtain ⟨i, hi⟩ := List.getElem?_of_mem hS
  have hne : ¬ ("Rect" = "Circle") := by decide
  rcases h1 i S hi with ⟨-, hty⟩ | ⟨hid, -, hw, hh⟩
  · exact absurd (hrect.symm.trans hty) hne
  · refine ⟨hw, hh, ?_, ?_⟩
    · intro T hT hTS
      obtain ⟨j, hj⟩ := List.getElem?_of_mem hT
      have hij : j = i := by
        rcases h1 j T hj with ⟨hTid, -⟩ | ⟨hTid, -⟩
        · rw [hTid, hid] at hTS
          exact absurd hTS (circle_ne_rect _ _)
        · rw [hTid, hid] at hTS
          exact tagged_id_injective _ _ _ hTS
      subst hij
      rw [hj] at hi
      exact Option.some.inj hi
    · intro l hl p hp hn
      rcases h2 l hl p hp with ⟨k, hk, -⟩ | ⟨k, -, hlab⟩
      · rw [hk, hid] at hn
        exact absurd (Option.some.inj hn) (circle_ne_rect _ _)
      · exact hlab

/-! ## Drag reflow -/

/-- C1 (drag reflow postcondition).  In a store where `S` is a rectangle carrying
a width and a height, no other shape shares its id and every endpoint bound to
`S.id` carries one of the eight rectangle labels, `handleDragEnd(S.id, x, y)`
completes, and afterwards every endpoint bound to `S.id` by a label has exactly
the coordinates of that label's anchor in `renderConnectionPoints`, computed
from the new `x`, `y` and the unchanged width and height of `S`. -/
theorem handleDragEnd_reflows_rect_anchors (s : Store) (S : Shape) (x y w h : ℚ)
    (hS : S ∈ s.elems) (hrect : S.type = "Rect")
    (hw : S.width = some w) (hh : S.height = some h)
    (huniq : ∀ T ∈ s.elems, T.id = S.id → T = S)
    (hlab : ∀ l ∈ s.lines, ∀ p ∈ l.points, p.nodeId = some S.id →
      ∃ a ∈ rectLabels, p.position = Position.label a) :
    ∃ s', handleDragEnd s S.id x y = Completion.normal s' ∧
      ∀ l ∈ s'.lines, ∀ p ∈ l.points, p.nodeId = some S.id →
        ∀ a ∈ rectLabels, p.position = Position.label a →
          anchorAt { S with x := x, y := y } a
            = some { position := Position.label a, x := p.x, y := p.y } := by
  have hfind := find_patchElems s.elems S x y hS huniq
  have hpt : ∀ l ∈ s.lines, ∀ p ∈ l.points,
      ∃ q, reflowPoint (patchElems s.elems S.id x y) S.id p = some q := by
    intro l hl p hp
    by_cases hn : p.nodeId = some S.id
    · obtain ⟨a, ha, hpa⟩ := hlab l hl p hp hn
      obtain ⟨px, py, hread, -⟩ :=
        readPointerPos_rect { S with x := x, y := y } w h hrect hw hh a ha
      refine ⟨{ p with x := px, y := py }, ?_⟩
      simp only [reflowPoint, hn, if_true, hfind, hpa, Position.toKey, hread]
    · exact ⟨p, by simp [reflowPoint, hn]⟩
  have hln : ∀ l ∈ s.lines, ∃ l', reflowLine (patchElems s.elems S.id x y) S.id l = some l' := by
    intro l hl
    obtain ⟨pts, hpts⟩ := mapOrThrow_total _ l.points (hpt l hl)
    exact ⟨{ l with points := pts }, by simp [reflowLine, hpts]⟩
  obtain ⟨ls, hls⟩ := mapOrThrow_total _ s.lines hln
  refine ⟨_, by
    show (match mapOrThrow (reflowLine (patchElems s.elems S.id x y) S.id) s.lines with
      | none => _
      | some updatedLines => _) = _
    rw [hls], ?_⟩
  intro l' hl' p' hp' hn' a ha hpa'
  obtain ⟨l, -, hl2⟩ := mapOrThrow_mem _ s.lines ls hls l' hl'
  unfold reflowLine at hl2
  cases hpts : mapOrThrow (reflowPoint (patchElems s.elems S.id x y) S.id) l.points with
  | none => simp [hpts] at hl2
  | some pts =>
    simp only [hpts, Option.some.injEq] at hl2
    subst hl2
    obtain ⟨p, -, hq⟩ := mapOrThrow_mem _ l.points pts hpts p' hp'
    obtain ⟨hk1, hk2⟩ := reflowPoint_keeps _ _ _ _ hq
    have hn : p.nodeId = some S.id := hk1 ▸ hn'
    have hpa : p.position = Position.label a := hk2 ▸ hpa'
    obtain ⟨px, py, hread, hanchor⟩ :=
      readPointerPos_rect { S with x := x, y := y } w h hrect hw hh a ha
    simp only [reflowPoint, hn, if_true, hfind, hpa, Position.toKey, hread,
      Option.some.injEq] at hq
    subst hq
    exact hanchor

theorem handleDragEnd_reflows_rect_anchors_witness :
    ∃ s', handleDragEnd demoStore "rect-1" 470 320 = Completion.normal s' ∧
      ∀ l ∈ s'.lines, ∀ p ∈ l.points, p.nodeId = some "rect-1" →
        ∀ a ∈ rectLabels, p.position = Position.label a →
          anchorAt { demoRect with x := 470, y := 320 } a
            = some { position := Position.label a, x := p.x, y := p.y } :=
  handleDragEnd_reflows_rect_anchors demoStore demoRect 470 320 200 150
    (by simp [demoStore]) rfl rfl rfl
    (by
      intro T hT hid
      simp [demoStore] at hT
      rcases hT with rfl | rfl
      · simp [demoCircle, demoRect] at hid
      · rfl)
    (by
      intro l hl p hp hn
      simp [demoStore] at hl
      subst hl
      simp [demoLine] at hp
      rcases hp with rfl | rfl
      · simp [demoRect] at hn
      · exact ⟨"top-left", by simp [rectLabels], rfl⟩)

/-! ## Edge-coordinate invariant -/

theorem staleStore_lines : staleStore.lines =
    [ { id := "line-0",
        points :=
          [ { nodeId := some "rect-0", position := .label "top", x := .num 500, y := .num 300 },
            { nodeId := some "rect-1", position := .label "top-left", x := .num 420,
              y := .num 320 } ] } ] := by
  simp [staleStore, startLine, handleDragEnd, twoRects, addRectangle, emptyStore, mapOrThrow,
    Completion.state, toString_nat_zero]

theorem staleStore_elems :
    staleStore.elems = [{ firstRect with x := 450, y := 300 }, demoRect] := by
  simp only [staleStore, startLine_elems, handleDragEnd_elems, twoRects_elems]
  simp [patchElems, firstRect, demoRect]

theorem staleStore_reachable : Reachable staleStore := by
  have h1 : Reachable (startLine twoRects firstRect firstRect.id
      { position := .label "top", x := .num 500, y := .num 300 }) := by
    apply Reachable.startLine _ _ twoRects_reachable
    · simp [twoRects_elems]
    · simp [renderConnectionPoints, firstRect, _CONNECTION_POINT_OFFSET]
      norm_num
  have h2 := Reachable.handleDragEnd "rect-0" 450 300 h1
  have h3 := Reachable.startLine demoRect
    { position := .label "top-left", x := .num 420, y := .num 320 } h2
    (by
      simp only [handleDragEnd_elems, startLine_elems, twoRects_elems]
      simp [patchElems, firstRect, demoRect])
    (by simp [renderConnectionPoints, demoRect, _CONNECTION_POINT_OFFSET])
  exact h3

/-- C2 (edge-coordinate invariant), evaluated on the code: the store reached by
adding two rectangles, selecting the top anchor of `rect-0`, dragging `rect-0`
and committing on `rect-1` is reachable and breaks the invariant: the committed
endpoint keeps the coordinates `rect-0` had when the anchor was selected. -/
theorem edge_coord_invariant_broken_by_drag_while_pending :
    Reachable staleStore ∧ ¬ EdgeCoordInv staleStore ∧
      (∃ l ∈ staleStore.lines, ∃ p ∈ l.points,
        p = { nodeId := some "rect-0", position := .label "top", x := .num 500, y := .num 300 }) ∧
      anchorAt { firstRect with x := 450, y := 300 } "top"
        = some { position := .label "top", x := .num 550, y := .num 300 } := by
  refine ⟨staleStore_reachable, ?_, ?_, ?_⟩
  · intro hinv
    have h := hinv _ (by rw [staleStore_lines]; exact List.mem_singleton.2 rfl)
      { nodeId := some "rect-0", position := .label "top", x := .num 500, y := .num 300 }
      (by simp)
      { firstRect with x := 450, y := 300 } (by simp [staleStore_elems]) rfl rfl
      "top" (by simp [rectLabels]) rfl
    simp [anchorAt, renderConnectionPoints, firstRect, _CONNECTION_POINT_OFFSET] at h
    norm_num at h
  · rw [staleStore_lines]
    exact ⟨_, List.mem_singleton.2 rfl, _, List.mem_cons_self _ _, rfl⟩
  · simp [anchorAt, renderConnectionPoints, firstRect, _CONNECTION_POINT_OFFSET]
    norm_num

/-! ## Connection draft protocol -/

/-- C3 (commit).  In a store with a selected point `X`, `startLine` with a node
id and point whose `(nodeId, position)` pair differs from that of `X` appends
exactly one edge to `lines`, with id `line-<old length>` and points `[X, Y]` in
that order, saves the new list under the key `lines`, and clears the selected
point. -/
theorem startLine_commits_edge (s : Store) (X : Endpoint) (shape : Shape) (nodeId : String)
    (Y : Point) (hpend : s.selectedPoint = some X)
    (hdiff : (X.nodeId, X.position) ≠ (some nodeId, Y.position)) :
    (startLine s shape nodeId Y).lines
        = s.lines ++
          [ { id := "line-" ++ toString s.lines.length,
              points := [X, { nodeId := some nodeId, position := Y.position, x := Y.x, y := Y.y }] } ] ∧
      (startLine s shape nodeId Y).localStorage.getItem "lines"
        = some (Stored.lines (startLine s shape nodeId Y).lines) ∧
      (startLine s shape nodeId Y).selectedPoint = none := by
  have hne : ¬ (X.nodeId = some nodeId ∧ X.position = Y.position) := by
    rintro ⟨h1, h2⟩
    exact hdiff (by rw [h1, h2])
  simp only [startLine, hpend, hne, if_false, saveData, getItem_setItem_same, and_self]

theorem startLine_commits_edge_witness :
    (startLine pendingStore demoRect "rect-1"
        { position := .label "right", x := .num 620, y := .num 395 }).lines
        = pendingStore.lines ++
          [ { id := "line-" ++ toString pendingStore.lines.length,
              points :=
                [ { nodeId := some "rect-1", position := .label "top", x := .num 520, y := .num 320 },
                  { nodeId := some "rect-1", position := .label "right", x := .num 620,
                    y := .num 395 } ] } ] ∧
      (startLine pendingStore demoRect "rect-1"
        { position := .label "right", x := .num 620, y := .num 395 }).localStorage.getItem "lines"
        = some (Stored.lines (startLine pendingStore demoRect "rect-1"
            { position := .label "right", x := .num 620, y := .num 395 }).lines) ∧
      (startLine pendingStore demoRect "rect-1"
        { position := .label "right", x := .num 620, y := .num 395 }).selectedPoint = none :=
  startLine_commits_edge pendingStore
    { nodeId := some "rect-1", position := .label "top", x := .num 520, y := .num 320 }
    demoRect "rect-1" { position := .label "right", x := .num 620, y := .num 395 } rfl
    (by decide)

/-- C4 (toggle-off).  From a store with no selected point, calling `startLine`
twice in a row with the same node id and point leaves no selected point, and the
edges and the whole persisted storage are what they were before the first call. -/
theorem startLine_twice_toggles_off (s : Store) (shape : Shape) (n : String) (A : Point)
    (hidle : s.selectedPoint = none) :
    (startLine (startLine s shape n A) shape n A).selectedPoint = none ∧
      (startLine (startLine s shape n A) shape n A).lines = s.lines ∧
      (startLine (startLine s shape n A) shape n A).localStorage = s.localStorage ∧
      (startLine (startLine s shape n A) shape n A).localStorage.getItem "lines"
        = s.localStorage.getItem "lines" := by
  have hfirst : startLine s shape n A
      = { s with selectedPoint := some (Endpoint.mk (some n) A.position A.x A.y) } := by
    simp only [startLine, hidle]
  have hsecond : startLine (startLine s shape n A) shape n A
      = { s with selectedPoint := none } := by
    rw [hfirst]
    simp only [startLine, and_self, if_true]
  rw [hsecond]
  exact ⟨rfl, rfl, rfl, rfl⟩

theorem startLine_twice_toggles_off_witness :
    (startLine (startLine demoStore demoRect "rect-1"
        { position := .label "top", x := .num 520, y := .num 320 }) demoRect "rect-1"
        { position := .label "top", x := .num 520, y := .num 320 }).selectedPoint = none ∧
      (startLine (startLine demoStore demoRect "rect-1"
        { position := .label "top", x := .num 520, y := .num 320 }) demoRect "rect-1"
        { position := .label "top", x := .num 520, y := .num 320 }).lines = demoStore.lines ∧
      (startLine (startLine demoStore demoRect "rect-1"
        { position := .label "top", x := .num 520, y := .num 320 }) demoRect "rect-1"
        { position := .label "top", x := .num 520, y := .num 320 }).localStorage
        = demoStore.localStorage ∧
      (startLine (startLine demoStore demoRect "rect-1"
        { position := .label "top", x := .num 520, y := .num 320 }) demoRect "rect-1"
        { position := .label "top", x := .num 520, y := .num 320 }).localStorage.getItem "lines"
        = demoStore.localStorage.getItem "lines" :=
  startLine_twice_toggles_off demoStore demoRect "rect-1"
    { position := .label "top", x := .num 520, y := .num 320 } rfl

/-! ## Zoom -/

/-- C5 (zoom keeps the point under the pointer fixed).  With a positive old
scale and a pointer `P`, `handleWheel` sets the scale to `oldScale * 1.1` for a
negative `deltaY` and `oldScale / 1.1` otherwise, and the new offset satisfies
`(P - newOffset) / newScale = (P - oldOffset) / oldScale` in both components. -/
theorem handleWheel_keeps_pointer_fixed (s : Store) (stage : Stage) (P : ℚ × ℚ) (deltaY : ℚ)
    (hpos : 0 < stage.scaleX) :
    (handleWheel s stage (some P) deltaY).scale
        = (if deltaY < 0 then stage.scaleX * (11 / 10) else stage.scaleX / (11 / 10)) ∧
      (P.1 - (handleWheel s stage (some P) deltaY).position.1)
          / (handleWheel s stage (some P) deltaY).scale = (P.1 - stage.x) / stage.scaleX ∧
      (P.2 - (handleWheel s stage (some P) deltaY).position.2)
          / (handleWheel s stage (some P) deltaY).scale = (P.2 - stage.y) / stage.scaleX := by
  have h0 : stage.scaleX ≠ 0 := ne_of_gt hpos
  refine ⟨rfl, ?_, ?_⟩ <;> simp only [handleWheel] <;> split <;> field_simp <;> ring

theorem handleWheel_keeps_pointer_fixed_witness :
    (0 : ℚ) < demoStage.scaleX ∧
      (handleWheel emptyStore demoStage (some (100, 50)) (-1)).scale
        = (if (-1 : ℚ) < 0 then demoStage.scaleX * (11 / 10) else demoStage.scaleX / (11 / 10)) ∧
      ((100 : ℚ) - (handleWheel emptyStore demoStage (some (100, 50)) (-1)).position.1)
          / (handleWheel emptyStore demoStage (some (100, 50)) (-1)).scale
        = (100 - demoStage.x) / demoStage.scaleX ∧
      ((50 : ℚ) - (handleWheel emptyStore demoStage (some (100, 50)) (-1)).position.2)
          / (handleWheel emptyStore demoStage (some (100, 50)) (-1)).scale
        = (50 - demoStage.y) / demoStage.scaleX :=
  ⟨by norm_num [demoStage],
    handleWheel_keeps_pointer_fixed emptyStore demoStage (100, 50) (-1) (by norm_num [demoStage])⟩

/-! ## Clear -/

/-- C6 (clear).  After `clearCanvas` the shapes and the edges are both empty,
the storage holds neither `shapes` nor `lines`, and every other key reads as
before. -/
theorem clearCanvas_empties_and_forgets (s : Store) :
    (clearCanvas s).elems = [] ∧ (clearCanvas s).lines = [] ∧
      (clearCanvas s).localStorage.getItem "shapes" = none ∧
      (clearCanvas s).localStorage.getItem "lines" = none ∧
      ∀ k : String, k ≠ "shapes" → k ≠ "lines" →
        (clearCanvas s).localStorage.getItem k = s.localStorage.getItem k := by
  refine ⟨rfl, rfl, ?_, ?_, ?_⟩
  · show ((s.localStorage.removeItem "shapes").removeItem "lines").getItem "shapes" = none
    rw [getItem_removeItem_other _ _ _ (by decide), getItem_removeItem_same]
  · exact getItem_removeItem_same _ _
  · intro k h1 h2
    show ((s.localStorage.removeItem "shapes").removeItem "lines").getItem k = _
    rw [getItem_removeItem_other _ _ _ h2, getItem_removeItem_other _ _ _ h1]

/-! ## Cancellation -/

/-- C7, as stated, fails for the `mouseup` listener: after a click on an anchor
the listener leaves the selected point in place. -/
theorem mouseupListener_keeps_selectedPoint :
    ¬ ((mouseupListener pendingStore).selectedPoint = none ∧
        (mouseupListener pendingStore).tempLine = none) := by
  rintro ⟨h, -⟩
  simp [mouseupListener, pendingStore, startLine, demoStore, emptyStore] at h

/-- C7 (cancellation), amended.  From every store the `contextmenu` handler
leaves no selected point and no draft edge; the `mouseup` listener leaves no
draft edge and keeps the selected point; both leave `lines` unchanged. -/
theorem cancellation_handlers (s : Store) :
    ((handleRightClick s).selectedPoint = none ∧ (handleRightClick s).tempLine = none ∧
        (handleRightClick s).lines = s.lines) ∧
      ((mouseupListener s).tempLine = none ∧
        (mouseupListener s).selectedPoint = s.selectedPoint ∧
        (mouseupListener s).lines = s.lines) :=
  ⟨⟨rfl, rfl, rfl⟩, ⟨rfl, rfl, rfl⟩⟩

/-! ## Edge ids -/

theorem dupStore_lines : dupStore.lines =
    [ { id := "line-1",
        points :=
          [ { nodeId := some "rect-0", position := .label "bottom", x := .num 500, y := .num 450 },
            { nodeId := some "rect-1", position := .label "bottom", x := .num 520,
              y := .num 470 } ] },
      { id := "line-1",
        points :=
          [ { nodeId := some "rect-0", position := .label "left", x := .num 400, y := .num 375 },
            { nodeId := some "rect-1", position := .label "left", x := .num 420,
              y := .num 395 } ] } ] := by
  simp [dupStore, startLine, removeLine, twoRects, addRectangle, emptyStore, toString_nat_zero,
    toString_nat_one]

theorem dupStore_reachable : Reachable dupStore :=
  have hf : firstRect ∈ [firstRect, demoRect] := List.mem_cons_self _ _
  have hd : demoRect ∈ [firstRect, demoRect] := List.mem_cons_of_mem _ (List.mem_cons_self _ _)
  (click_keeps _ _ demoRect _
    (click_keeps _ _ firstRect _
      (removeLine_keeps _ _ _
        (click_keeps _ _ demoRect _
          (click_keeps _ _ firstRect _
            (click_keeps _ _ demoRect _
              (click_keeps _ _ firstRect _ ⟨twoRects_reachable, twoRects_elems⟩ hf
                (by simp [firstRect_points]))
              hd (by simp [demoRect_points]))
            hf (by simp [firstRect_points]))
          hd (by simp [demoRect_points])))
      hf (by simp [firstRect_points]))
    hd (by simp [demoRect_points])).1

/-- C8 (edge ids are unique), evaluated on the code: after two commits, the
removal of `line-0` and a third commit, the store is reachable and holds two
edges with the id `line-1`; a click on either one removes both. -/
theorem edge_ids_repeat_after_removal :
    Reachable dupStore ∧ dupStore.lines.map Line.id = ["line-1", "line-1"] ∧
      ¬ (dupStore.lines.map Line.id).Nodup ∧
      ∀ clicked ∈ dupStore.lines, (removeLine dupStore clicked).lines = [] := by
  refine ⟨dupStore_reachable, by simp [dupStore_lines], by simp [dupStore_lines], ?_⟩
  intro clicked hc
  rw [dupStore_lines] at hc
  simp only [removeLine, dupStore_lines]
  simp at hc
  rcases hc with rfl | rfl <;> simp

/-! ## Unnamed endpoints -/

/-- C9 (reflow leaves unnamed endpoints alone), evaluated on the code: with an
edge committed on an anchor of `circle-0`, which carries no position label,
`handleDragEnd("circle-0", ...)` raises a `TypeError`; the shapes are moved and
saved, the edges are left as they were. -/
theorem handleDragEnd_throws_on_circle_edge :
    Reachable demoStore ∧
      handleDragEnd demoStore "circle-0" 150 100
        = Completion.threw
            { demoStore with
              elems := [{ demoCircle with x := 150, y := 100 }, demoRect],
              localStorage :=
                [ ("shapes", .shapes [{ demoCircle with x := 150, y := 100 }, demoRect]),
                  ("lines", .lines [demoLine]) ] } := by
  refine ⟨demoStore_reachable, ?_⟩
  simp [handleDragEnd, demoStore, emptyStore, demoLine, demoCircle, demoRect, mapOrThrow,
    reflowLine, reflowPoint, readPointerPos, newPointerPos, Position.toKey, objectPrototypeKeys,
    saveData, Storage.setItem, List.lookup, Coord.num_add_num, Coord.num_sub_num,
    Coord.num_div_two]

/-! ## Shape ids -/

theorem IdsByIndex_append (elems : List Shape) (e : Shape) (h : IdsByIndex elems)
    (he : e.id = "circle-" ++ toString elems.length ∨ e.id = "rect-" ++ toString elems.length) :
    IdsByIndex (elems ++ [e]) := by
  intro i S hi
  by_cases hlt : i < elems.length
  · rw [List.getElem?_append_left hlt] at hi
    exact h i S hi
  · rw [List.getElem?_append_right (by omega)] at hi
    have hi0 : i - elems.length = 0 := by
      by_contra hne
      have : ([e] : List Shape)[i - elems.length]? = none := by
        apply List.getElem?_eq_none
        simp
        omega
      rw [this] at hi
      cases hi
    rw [hi0] at hi
    simp at hi
    subst hi
    have : i = elems.length := by omega
    subst this
    exact he

theorem IdsByIndex_patch (elems : List Shape) (id : String) (x y : ℚ) (h : IdsByIndex elems) :
    IdsByIndex (patchElems elems id x y) := by
  intro i S hi
  simp only [patchElems, List.getElem?_map] at hi
  cases hT : elems[i]? with
  | none => simp [hT] at hi
  | some T =>
    simp only [hT, Option.map_some', Option.some.injEq] at hi
    have hid : S.id = T.id := by
      subst hi
      split <;> rfl
    rw [hid]
    exact h i T hT

theorem reachable_IdsByIndex {s : Store} (h : Reachable s) : IdsByIndex s.elems := by
  induction h with
  | init => intro i S hi; simp [emptyStore] at hi
  | addCircle _ ih => exact IdsByIndex_append _ _ ih (Or.inl rfl)
  | addRectangle _ _ _ ih => exact IdsByIndex_append _ _ ih (Or.inr rfl)
  | startLine _ _ _ _ _ ih => rw [startLine_elems]; exact ih
  | handleDragEnd _ _ _ _ ih => rw [handleDragEnd_elems]; exact IdsByIndex_patch _ _ _ _ ih
  | handleMouseMove _ _ _ _ ih => rw [handleMouseMove_elems]; exact ih
  | handleRightClick _ ih => exact ih
  | mouseupListener _ ih => exact ih
  | removeLine _ _ ih => exact ih
  | clearCanvas _ _ => intro i S hi; simp [clearCanvas] at hi
  | handleWheel _ _ _ _ ih => rw [handleWheel_elems]; exact ih

theorem IdsByIndex_nodup (elems : List Shape) (h : IdsByIndex elems) :
    (elems.map Shape.id).Nodup := by
  rw [List.nodup_iff_getElem?_ne_getElem?]
  intro i j hij hj
  simp only [List.length_map] at hj
  have hi : i < elems.length := by omega
  simp only [List.getElem?_map, List.getElem?_eq_getElem hi, List.getElem?_eq_getElem hj,
    Option.map_some', ne_eq, Option.some.injEq]
  intro heq
  have h1 := h i elems[i] (List.getElem?_eq_getElem hi)
  have h2 := h j elems[j] (List.getElem?_eq_getElem hj)
  rw [heq] at h1
  rcases h1 with h1 | h1 <;> rcases h2 with h2 | h2 <;> rw [h1] at h2
  · exact absurd (tagged_id_injective _ _ _ h2) (by omega)
  · exact circle_ne_rect _ _ h2
  · exact circle_ne_rect _ _ h2.symm
  · exact absurd (tagged_id_injective _ _ _ h2) (by omega)

/-- C10 (shape ids are unique).  In every store reachable from the empty store
by the handlers, among them every sequence of `addCircle`, `addRectangle`,
`handleDragEnd` and `clearCanvas`, no two shapes in `elems` have the same id. -/
theorem reachable_shape_ids_unique (s : Store) (h : Reachable s) :
    (s.elems.map Shape.id).Nodup :=
  IdsByIndex_nodup s.elems (reachable_IdsByIndex h)

theorem reachable_shape_ids_unique_witness :
    Reachable demoStore ∧ (demoStore.elems.map Shape.id).Nodup :=
  ⟨demoStore_reachable, reachable_shape_ids_unique demoStore demoStore_reachable⟩

/-! ## Position patch frame -/

theorem mapOrThrow_forall₂ {α β : Type} (f : α → Option β) :
    ∀ (l : List α) (bs : List β), mapOrThrow f l = some bs →
      List.Forall₂ (fun a b => f a = some b) l bs
  | [], bs, h => by
    simp [mapOrThrow] at h
    subst h
    exact List.Forall₂.nil
  | a :: as, bs, h => by
    unfold mapOrThrow at h
    cases hfa : f a with
    | none => simp [hfa] at h
    | some b0 =>
      cases hrest : mapOrThrow f as with
      | none => simp [hfa, hrest] at h
      | some bs0 =>
        simp [hfa, hrest] at h
        subst h
        exact List.Forall₂.cons hfa (mapOrThrow_forall₂ f as bs0 hrest)

theorem mapOrThrow_fixed {α : Type} (f : α → Option α) :
    ∀ l : List α, (∀ a ∈ l, f a = some a) → mapOrThrow f l = some l
  | [], _ => rfl
  | a :: as, h => by
    have ha := h a (List.mem_cons_self a as)
    have hrest := mapOrThrow_fixed f as (fun c hc => h c (List.mem_cons_of_mem a hc))
    simp [mapOrThrow, ha, hrest]

theorem patchElems_frame (elems : List Shape) (id : String) (x y : ℚ) :
    List.Forall₂ (ShapeFrame id x y) elems (patchElems elems id x y) := by
  unfold patchElems
  rw [List.forall₂_map_right_iff, List.forall₂_same]
  intro T _
  by_cases hT : T.id = id
  · rw [if_pos hT]
    exact ⟨rfl, fun h => absurd hT h, fun _ => ⟨rfl, rfl⟩⟩
  · rw [if_neg hT]
    exact ⟨rfl, fun _ => rfl, fun h => absurd h hT⟩

theorem patchElems_absent (elems : List Shape) (id : String) (x y : ℚ)
    (h : ∀ T ∈ elems, T.id ≠ id) : patchElems elems id x y = elems := by
  unfold patchElems
  conv_rhs => rw [← List.map_id elems]
  apply List.map_congr_left
  intro T hT
  simp [h T hT]

theorem reflowPoint_frame (ue : List Shape) (id : String) (p q : Endpoint)
    (h : reflowPoint ue id p = some q) : EndpointFrame id p q := by
  obtain ⟨h1, h2⟩ := reflowPoint_keeps ue id p q h
  refine ⟨h1, h2, ?_⟩
  intro hne
  simp only [reflowPoint, hne, if_false, Option.some.injEq] at h
  exact h.symm

theorem reflowLine_frame (ue : List Shape) (id : String) (l l' : Line)
    (h : reflowLine ue id l = some l') : LineFrame id l l' := by
  unfold reflowLine at h
  cases hpts : mapOrThrow (reflowPoint ue id) l.points with
  | none => simp [hpts] at h
  | some pts =>
    simp only [hpts, Option.some.injEq] at h
    subst h
    exact ⟨rfl, (mapOrThrow_forall₂ _ l.points pts hpts).imp
      (fun p q hpq => reflowPoint_frame ue id p q hpq)⟩

theorem lineFrame_same (id : String) (l : Line) : LineFrame id l l :=
  ⟨rfl, List.forall₂_same.2 (fun _ _ => ⟨rfl, rfl, fun _ => rfl⟩)⟩

theorem handleDragEnd_lines_frame (s : Store) (id : String) (x y : ℚ) :
    List.Forall₂ (LineFrame id) s.lines (handleDragEnd s id x y).state.lines := by
  unfold handleDragEnd
  simp only []
  split
  · exact List.forall₂_same.2 (fun l _ => lineFrame_same id l)
  · rename_i ls hls
    exact (mapOrThrow_forall₂ _ s.lines ls hls).imp
      (fun l l' hl => reflowLine_frame _ id l l' hl)

theorem handleDragEnd_of_lines (s : Store) (id : String) (x y : ℚ) (ls : List Line)
    (h : mapOrThrow (reflowLine (patchElems s.elems id x y) id) s.lines = some ls) :
    handleDragEnd s id x y
      = Completion.normal
          { s with
            elems := patchElems s.elems id x y,
            lines := ls,
            localStorage :=
              saveData (saveData s.localStorage "shapes" (.shapes (patchElems s.elems id x y)))
                "lines" (.lines ls) } := by
  show (match mapOrThrow (reflowLine (patchElems s.elems id x y) id) s.lines with
    | none => _
    | some updatedLines => _) = _
  rw [h]
  rfl

theorem handleDragEnd_absent (s : Store) (id : String) (x y : ℚ)
    (h : ∀ T ∈ s.elems, T.id ≠ id) :
    ∃ s', handleDragEnd s id x y = Completion.normal s' ∧ s'.elems = s.elems ∧
      s'.lines = s.lines := by
  have hfind : (patchElems s.elems id x y).find? (fun el => el.id == id) = none := by
    rw [patchElems_absent s.elems id x y h, List.find?_eq_none]
    intro T hT
    simpa using h T hT
  have hpt : ∀ p : Endpoint, reflowPoint (patchElems s.elems id x y) id p = some p := by
    intro p
    unfold reflowPoint
    split
    · rw [hfind]
    · rfl
  have hln : ∀ l : Line, reflowLine (patchElems s.elems id x y) id l = some l := by
    intro l
    unfold reflowLine
    rw [mapOrThrow_fixed _ l.points (fun p _ => hpt p)]
  have hls := mapOrThrow_fixed (reflowLine (patchElems s.elems id x y) id) s.lines
    (fun l _ => hln l)
  exact ⟨_, handleDragEnd_of_lines s id x y s.lines hls, patchElems_absent s.elems id x y h, rfl⟩

/-- C11 (position patch frame).  However `handleDragEnd(id, x, y)` ends, the
shapes keep their number and order, each shape keeps every field other than `x`
and `y`, only shapes whose id is `id` are moved, the edges keep their number and
order, each edge keeps its id and the number and order of its endpoints, every
endpoint keeps its node id and label, and an endpoint bound to another node is
kept whole; when no shape has that id the call completes and `elems` and `lines`
are unchanged. -/
theorem handleDragEnd_position_patch_frame (s : Store) (id : String) (x y : ℚ) :
    (handleDragEnd s id x y).state.elems.length = s.elems.length ∧
      List.Forall₂ (ShapeFrame id x y) s.elems (handleDragEnd s id x y).state.elems ∧
      (handleDragEnd s id x y).state.lines.length = s.lines.length ∧
      List.Forall₂ (LineFrame id) s.lines (handleDragEnd s id x y).state.lines ∧
      ((∀ T ∈ s.elems, T.id ≠ id) →
        ∃ s', handleDragEnd s id x y = Completion.normal s' ∧ s'.elems = s.elems ∧
          s'.lines = s.lines) := by
  have he : List.Forall₂ (ShapeFrame id x y) s.elems (handleDragEnd s id x y).state.elems := by
    rw [handleDragEnd_elems]
    exact patchElems_frame s.elems id x y
  have hl := handleDragEnd_lines_frame s id x y
  exact ⟨he.length_eq.symm, he, hl.length_eq.symm, hl, handleDragEnd_absent s id x y⟩

/-! ## Mini-map sync -/

theorem zoomedStore_viewport : zoomedStore.scale = 11 / 10 ∧ zoomedStore.position = (-10, -5) := by
  simp [zoomedStore, handleWheel, demoStage]
  norm_num

/-- C12 (mini-map sync), evaluated on the code: on any mounted mini-map the sync
effect sets the offset to `position * (scale * 0.1)`, not `position * 0.1`.
After one wheel zoom-in at `(100, 50)` the main viewport has scale `1.1` and
offset `(-10, -5)`; the mini-map then has scale `0.11` and offset
`(-1.1, -0.55)`, while the props of the same render give `(-1, -0.5)`. -/
theorem miniMap_sync_multiplies_offset_by_scale :
    (∀ (s : Store) (miniMap : MiniMap),
        miniMapSyncEffect s (some miniMap)
          = some { miniMap with x := s.position.1 * (s.scale * (1 / 10)),
                                y := s.position.2 * (s.scale * (1 / 10)) }) ∧
      Reachable zoomedStore ∧
      zoomedStore.scale = 11 / 10 ∧ zoomedStore.position = (-10, -5) ∧
      syncMiniMap zoomedStore
        = some { scaleX := 11 / 100, scaleY := 11 / 100, x := -(11 / 10), y := -(11 / 20) } ∧
      miniMapProps zoomedStore
        = { scaleX := 11 / 100, scaleY := 11 / 100, x := -1, y := -(1 / 2) } ∧
      syncMiniMap zoomedStore ≠ some (miniMapProps zoomedStore) := by
  obtain ⟨hs, hp⟩ := zoomedStore_viewport
  have hsync : syncMiniMap zoomedStore
      = some { scaleX := 11 / 100, scaleY := 11 / 100, x := -(11 / 10), y := -(11 / 20) } := by
    simp only [syncMiniMap, miniMapSyncEffect, miniMapProps, hs, hp]
    norm_num
  have hprops : miniMapProps zoomedStore
      = { scaleX := 11 / 100, scaleY := 11 / 100, x := -1, y := -(1 / 2) } := by
    simp only [miniMapProps, hs, hp]
    norm_num
  refine ⟨fun _ _ => rfl, Reachable.handleWheel demoStage (some (100, 50)) (-1) Reachable.init,
    hs, hp, hsync, hprops, ?_⟩
  rw [hsync, hprops]
  intro h
  simp only [Option.some.injEq, MiniMap.mk.injEq] at h
  norm_num at h

end Generator
